import Mathlib

/-!
Verification of the core routines of the slide-starter repository.

Part 1 models the paginated-table-layout routine of `src/sls_apps.js`
(`createPaginatedTableSlides`, `calculateRowHeight`,
`calculateCellRowHeight`) as a fuel-indexed state machine: the JS
`while` loop destructively shifts rows off `values`, accumulates them
into `page`, and emits a table slide whenever the page fills.  The
model returns the list of emitted pages (each one `headerRow ::
dataRows`) together with the final state of the `values` array, so
that both the emitted output and the mutation of the input array are
observable.  `none` in the first component means the loop did not
finish within the given fuel.

Part 2 models the PSI batch pipeline (`runPSITests`, `submitTests`,
`parseResults`, `createResultsMap` of the PSI variant file, and
`getCo2eqPerByte` / `checkGreenHosting` of the CO2 helper file).
External effects (JSON.parse of a response body, the green-hosting
HTTP lookup, the co2 library computation) are passed in as explicit
oracles; a thrown JS exception is modelled as `Except.error`.
-/

namespace SlideStarter

/-- A table row as it comes from the spreadsheet: one string per cell. -/
abbrev Row := List String

/-- Source constant in sls_apps.js: `const COLUMN_WIDTH = [50, 50, 75, 250, 75, 180];`. -/
def COLUMN_WIDTH : List Nat := [50, 50, 75, 250, 75, 180]

/-- Source constant in sls_apps.js: `const MAX_PAGE_HEIGHT = 175;`. -/
def MAX_PAGE_HEIGHT : Nat := 175

/-- Source constant in sls_apps.js: `const LINE_HEIGHT = 10;`. -/
def LINE_HEIGHT : Nat := 10

/-- Models `calculateCellRowHeight(lengthText, columnIndex, fontSize)`:
`Math.ceil(lengthText * fontSize / COLUMN_WIDTH[columnIndex]) * fontSize`,
with the width list passed explicitly.  Ceiling division on naturals is
`(a + w - 1) / w`. -/
def calculateCellRowHeight (widths : List Nat) (lengthText colIdx fontSize : Nat) : Nat :=
  ((lengthText * fontSize + (widths.getD colIdx 0) - 1) / (widths.getD colIdx 0)) * fontSize

/-- Models `calculateRowHeight(row)`: maximum of the per-cell heights, starting
from 0 and replacing whenever the height of a cell is larger. -/
def calculateRowHeight (widths : List Nat) (lineH : Nat) (row : Row) : Nat :=
  (row.enum.map (fun ic => calculateCellRowHeight widths ic.2.length ic.1 lineH)).foldl max 0

/-- Total estimated height of a list of data rows (the running
`currentPageHeight` accumulated by the loop). -/
def pageRowsHeight (widths : List Nat) (lineH : Nat) (rows : List Row) : Nat :=
  (rows.map (calculateRowHeight widths lineH)).sum

/-- The `while (values.length > 0)` loop of `createPaginatedTableSlides`,
with fuel.  State: the remaining `values`, the current `page`, and
`currentPageHeight`.  Result: (`some` emitted pages if the loop exited
within the fuel, else `none`; final contents of the `values` array).

Per iteration: shift `currentRow`, add its height; on overflow unshift
it back and flush the page iff it is non-empty (`pageFull = page.length
> 0` — when the page is empty nothing is flushed and the height is NOT
reset); otherwise push the row, flushing when it was the last one.  A
flushed page gets `headerRow` unshifted in front. -/
def runPaginate (widths : List Nat) (lineH maxH : Nat) (header : Row) :
    Nat → List Row → List Row → Nat → Option (List (List Row)) × List Row
  | _, [], _, _ => (some [], [])
  | 0, r :: rest, _, _ => (none, r :: rest)
  | fuel + 1, r :: rest, page, h =>
    let h' := h + calculateRowHeight widths lineH r
    if maxH < h' then
      if page.isEmpty then
        runPaginate widths lineH maxH header fuel (r :: rest) [] h'
      else
        let res := runPaginate widths lineH maxH header fuel (r :: rest) [] 0
        (res.1.map (fun ps => (header :: page) :: ps), res.2)
    else if rest.isEmpty then
      let res := runPaginate widths lineH maxH header fuel [] [] 0
      (res.1.map (fun ps => (header :: (page ++ [r])) :: ps), res.2)
    else
      runPaginate widths lineH maxH header fuel rest (page ++ [r]) h'

/-- Models `createPaginatedTableSlides(deckId, layout, sectionName,
values)` restricted to its data flow: shift the header row off `values` and run
the pagination loop on the remaining rows with the constants of the file. -/
def createPaginatedTableSlides (fuel : Nat) (values : List Row) :
    Option (List (List Row)) × List Row :=
  match values with
  | [] => (some [], [])
  | header :: dataRows =>
      runPaginate COLUMN_WIDTH LINE_HEIGHT MAX_PAGE_HEIGHT header fuel dataRows [] 0

/-- A data row whose estimated height (180) exceeds `MAX_PAGE_HEIGHT`
(175): one cell of 90 characters in column 0 (width 50) gives
`ceil(90 * 10 / 50) * 10 = 180`. -/
def oversizedRow : Row := [String.mk (List.replicate 90 'a')]

/-! Part 2: the PSI batch pipeline. -/

/-- A cell value in a sheet row: the pipeline writes strings and numbers. -/
inductive CellVal
  | str : String → CellVal
  | num : ℚ → CellVal
deriving DecidableEq

/-- One entry of `lighthouseResult.audits`: its `score` (a number or
null), its `numericValue`, and the `details.data` payload (read only
for the `final-screenshot` audit). -/
structure AuditEntry where
  score : Option ℚ
  numericValue : ℚ
  detailsData : String
deriving DecidableEq

/-- The fields of `lighthouseResult` the pipeline reads.  `audits` and
`categories` keep the key order of the object, as `Object.keys` does. -/
structure LighthouseResult where
  lighthouseVersion : String
  finalUrl : String
  audits : List (String × AuditEntry)
  categories : List (String × ℚ)
deriving DecidableEq

/-- The fields of `loadingExperience` the pipeline reads.  `metrics`
is `none` when the field-experience section is absent; when present it
maps each metric name to its raw `percentile`. -/
structure LoadingExperience where
  overall_category : String
  metrics : Option (List (String × ℚ))
  origin_fallback : Bool
deriving DecidableEq

/-- The `PsiResult` typedef: either `{error: {message}}` or
`{lighthouseResult, loadingExperience}`. -/
inductive PsiResult
  | apiError (message : String)
  | success (lighthouseResult : LighthouseResult) (loadingExperience : LoadingExperience)
deriving DecidableEq

/-- The map built by `createResultsMap()`: four named ordered key lists. -/
structure ResultsMap where
  categories : List String
  metrics : List String
  assets : List String
  crux : List String
deriving DecidableEq

/-- Models `createResultsMap()` with its literal key lists. -/
def createResultsMap : ResultsMap where
  categories := ["performance"]
  crux := [
    "FIRST_CONTENTFUL_PAINT_MS",
    "LARGEST_CONTENTFUL_PAINT_MS",
    "FIRST_INPUT_DELAY_MS",
    "CUMULATIVE_LAYOUT_SHIFT_SCORE",
    "INTERACTION_TO_NEXT_PAINT"]
  metrics := [
    "server-response-time",
    "first-contentful-paint",
    "largest-contentful-paint",
    "total-blocking-time",
    "cumulative-layout-shift"]
  assets := [
    "total",
    "script",
    "image",
    "stylesheet",
    "document",
    "font",
    "other",
    "media",
    "third-party"]

/-- Property access `obj[key]` on a JS object modelled as an ordered
association list: `some` the value, or `none` (undefined). -/
def lookupKey {α : Type} (l : List (String × α)) (k : String) : Option α :=
  (l.find? (fun p => p.1 == k)).map (fun p => p.2)

/-- Models the access `lighthouseResult.audits["final-screenshot"]
.details.data`; a missing audit makes the access throw (TypeError). -/
def screenshotData (lr : LighthouseResult) : Except String String :=
  match lookupKey lr.audits "final-screenshot" with
  | some a => Except.ok a.detailsData
  | none => Except.error "TypeError"

/-- One step of the categories `forEach`:
`lighthouseResult.categories[category].score * 100`; a missing
category makes the access throw. -/
def categoryScore (lr : LighthouseResult) (category : String) : Except String CellVal :=
  match lookupKey lr.categories category with
  | some score => Except.ok (CellVal.num (score * 100))
  | none => Except.error "TypeError"

/-- One step of the metrics `forEach`:
`lighthouseResult.audits[metric].numericValue`; a missing audit
makes the access throw. -/
def metricValue (lr : LighthouseResult) (metric : String) : Except String CellVal :=
  match lookupKey lr.audits metric with
  | some a => Except.ok (CellVal.num a.numericValue)
  | none => Except.error "TypeError"

/-- The `auditKeys.filter(...)` of `parseResults`.  The callback
returns `auditName` when `score < 1 && score != null` and `undefined`
otherwise, and `filter` keeps an element iff the returned value is
truthy — so an audit is kept iff its score is a number below 1 AND its
name is a non-empty string (the empty string is falsy in JS). -/
def failedAuditNames (audits : List (String × AuditEntry)) : List String :=
  (audits.filter (fun p =>
    (match p.2.score with
     | some s => decide (s < 1)
     | none => false) && !(p.1 == ""))).map (fun p => p.1)

/-- The crux `forEach` of `parseResults`: for each metric name, push
its `percentile` if the metric is present (divided by 100 for
`CUMULATIVE_LAYOUT_SHIFT_SCORE`), else push the filler value. -/
def cruxValues (metrics : List (String × ℚ)) (names : List String) : List CellVal :=
  names.map (fun name =>
    match lookupKey metrics name with
    | some percentile =>
        if name == "CUMULATIVE_LAYOUT_SHIFT_SCORE" then CellVal.num (percentile / 100)
        else CellVal.num percentile
    | none => CellVal.str "N/A")

/-- The `if (loadingExperience.metrics)` block: when the
field-experience section is present, push `overall_category` followed
by the five crux metric values; otherwise push nothing. -/
def cruxBlock (rm : ResultsMap) (le : LoadingExperience) : List CellVal :=
  match le.metrics with
  | some ms => CellVal.str le.overall_category :: cruxValues ms rm.crux
  | none => []

/-- The result object of `parseResults`. -/
structure ParsedResults where
  data : List CellVal
  crux_data : Bool
  origin_fallback : Bool
deriving DecidableEq

/-- Models `parseResults` up to (excluding) the CO2 block: extract the
screenshot, the category scores, the lab metric values, the
failed-audit list and the version, assembling `allResults.data` in
that order with the crux block in the middle.  An `Except.error`
models a thrown exception. -/
def parseResultsCore (rm : ResultsMap) (lr : LighthouseResult) (le : LoadingExperience) :
    Except String ParsedResults :=
  match screenshotData lr with
  | Except.error e => Except.error e
  | Except.ok screenshot =>
    match rm.categories.mapM (categoryScore lr) with
    | Except.error e => Except.error e
    | Except.ok categories =>
      match rm.metrics.mapM (metricValue lr) with
      | Except.error e => Except.error e
      | Except.ok metrics =>
        Except.ok {
          data := [CellVal.str screenshot] ++ cruxBlock rm le ++ categories ++ metrics ++
            [CellVal.str (String.intercalate "," (failedAuditNames lr.audits)),
             CellVal.str lr.lighthouseVersion],
          crux_data := le.metrics.isSome,
          origin_fallback :=
            match le.metrics with
            | some _ => le.origin_fallback
            | none => false }

/-- Models the hostname extraction in `checkGreenHosting`: split the
URL on slashes and take index 2 (a JS out-of-range index interpolates
as the string "undefined"). -/
def hostnameOf (url : String) : String := (url.splitOn "/").getD 2 "undefined"

/-- Models `checkGreenHosting(url)`: fetch the green-check endpoint
for the hostname of the URL and read the `green` flag.  The fetch/parse outcome is
the `greenCheck` oracle; a failure is a thrown exception — nothing in
the function catches it. -/
def checkGreenHosting (greenCheck : String → Except String Bool) (url : String) :
    Except String Bool :=
  greenCheck (hostnameOf url)

/-- Models `getCo2eqPerByte(totalBytes, url)`: look up green hosting for the
URL, then `co2Calculation.perByte(totalBytes, isGreenHosting)`.  The
exception of the lookup propagates — there is no try/catch here either. -/
def getCo2eqPerByte (greenCheck : String → Except String Bool)
    (perByte : ℚ → Bool → ℚ) (totalBytes : ℚ) (url : String) : Except String ℚ :=
  match checkGreenHosting greenCheck url with
  | Except.error e => Except.error e
  | Except.ok isGreenHosting => Except.ok (perByte totalBytes isGreenHosting)

/-- Models the access `lighthouseResult.audits["total-byte-weight"]
.numericValue`. -/
def totalByteWeight (lr : LighthouseResult) : Except String ℚ :=
  match lookupKey lr.audits "total-byte-weight" with
  | some a => Except.ok a.numericValue
  | none => Except.error "TypeError"

/-- Models `parseResults` in full: the core extraction followed by the
CO2 block executed when `INCLUDE_CO2EQ` is set, appending the CO2
figure to the data row.  Any exception propagates to the caller. -/
def parseResults (rm : ResultsMap) (includeCo2 : Bool)
    (greenCheck : String → Except String Bool) (perByte : ℚ → Bool → ℚ)
    (lr : LighthouseResult) (le : LoadingExperience) : Except String ParsedResults :=
  match parseResultsCore rm lr le with
  | Except.error e => Except.error e
  | Except.ok res =>
    if includeCo2 then
      match totalByteWeight lr with
      | Except.error e => Except.error e
      | Except.ok tbw =>
        match getCo2eqPerByte greenCheck perByte tbw lr.finalUrl with
        | Except.error e => Except.error e
        | Except.ok co2eq => Except.ok { res with data := res.data ++ [CellVal.num co2eq] }
    else Except.ok res

/-- One row of the URL settings sheet: `[url, label, device]`. -/
structure UrlSetting where
  url : String
  label : String
  device : String
deriving DecidableEq

/-- A row appended to the results sheet, together with the note
`addNote` attaches to it (if any). -/
structure OutRow where
  cells : List CellVal
  note : Option String
deriving DecidableEq

/-- The note text attached to an API-error row. -/
def psiErrorNote (message : String) : String :=
  message ++ "\n\n" ++
    "If this error persists, investigate the cause by running the " ++
    "URL manually via " ++
    "https://developers.google.com/speed/pagespeed/insights/"

/-- The error-branch row of the `runPSITests` loop:
`[url, label, device, ...placeholders, "PSI Error"]` with
`sheet.getLastColumn() - 3` placeholder cells. -/
def errorRow (lastColumn : Nat) (s : UrlSetting) : List CellVal :=
  [CellVal.str s.url, CellVal.str s.label, CellVal.str s.device] ++
    List.replicate (lastColumn - 3) (CellVal.str "N/A") ++ [CellVal.str "PSI Error"]

/-- The success-branch row of the `runPSITests` loop:
`[url, label, device, today, cruxDataType, ...results.data,
subtitleSummary]`. -/
def successRow (today : String) (s : UrlSetting) (results : ParsedResults) : List CellVal :=
  let cruxDataType :=
    if !results.crux_data then "NONE"
    else if results.origin_fallback then "ORIGIN" else "PAGE"
  [CellVal.str s.url, CellVal.str s.label, CellVal.str s.device,
    CellVal.str today, CellVal.str cruxDataType] ++ results.data ++
    [CellVal.str (s.device.toLower ++ " - " ++ cruxDataType.toLower)]

/-- The `runPSITests` loop over the batch of responses.  Each response
comes as the outcome of `JSON.parse` on its body (`Except.error` = the
parse threw).  Returns the rows appended to the sheet before the loop
ended, and `some message` when an uncaught exception escaped the loop
(aborting the remaining responses).  A missing settings row for a
response also throws (`urlSettings[i]` is undefined). -/
def runPSITests (rm : ResultsMap) (lastColumn : Nat) (today : String) (includeCo2 : Bool)
    (greenCheck : String → Except String Bool) (perByte : ℚ → Bool → ℚ) :
    List UrlSetting → List (Except String PsiResult) → List OutRow × Option String
  | _, [] => ([], none)
  | [], _ :: _ => ([], some "TypeError")
  | s :: settings, body :: responses =>
    match body with
    | Except.error e => ([], some e)
    | Except.ok (PsiResult.apiError message) =>
      let rest := runPSITests rm lastColumn today includeCo2 greenCheck perByte
        settings responses
      (⟨errorRow lastColumn s, some (psiErrorNote message)⟩ :: rest.1, rest.2)
    | Except.ok (PsiResult.success lr le) =>
      match parseResults rm includeCo2 greenCheck perByte lr le with
      | Except.error e => ([], some e)
      | Except.ok results =>
        let rest := runPSITests rm lastColumn today includeCo2 greenCheck perByte
          settings responses
        (⟨successRow today s results, none⟩ :: rest.1, rest.2)

/-- Models the regex test of `getFunctionByName` (one or more
characters, all in the class a-z, A-Z, 0-9): non-empty and every
character a Latin letter or decimal digit. -/
def isAlphanumeric (s : String) : Bool :=
  !s.toList.isEmpty && s.toList.all (fun c => c.isAlpha || c.isDigit)

/-- Models `getFunctionByName(functionName)`: throw unless the name passes
the alphanumeric test, then evaluate `return <name>;` — modelled
abstractly as resolving the named global binding. -/
def getFunctionByName (functionName : String) : Except String String :=
  if isAlphanumeric functionName then Except.ok functionName
  else Except.error "Function name not alphanumeric"

/-- Written from the words of claim C8 as stated: the audit
identifiers whose score is present (non-null) and strictly less than
1, in the order of the audit keys of the response. -/
def specFailedAudits (audits : List (String × AuditEntry)) : List String :=
  (audits.filter (fun p =>
    match p.2.score with
    | some s => decide (s < 1)
    | none => false)).map (fun p => p.1)

/-- Written from the words of the amended claim C8: additionally the
audit identifier must be a non-empty string. -/
def specFailedAuditsAmended (audits : List (String × AuditEntry)) : List String :=
  (audits.filter (fun p =>
    !(p.1 == "") &&
    (match p.2.score with
     | some s => decide (s < 1)
     | none => false))).map (fun p => p.1)

/-- An audit entry with a null score. -/
def auditNull : AuditEntry := ⟨none, 0, ""⟩

/-- Concrete lighthouse result used to witness C7: all required
lookups present, one failing audit. -/
def lrC7 : LighthouseResult where
  lighthouseVersion := "10.0.0"
  finalUrl := "https://a.example/x"
  audits := [("final-screenshot", ⟨none, 0, "imgdata"⟩),
    ("server-response-time", auditNull), ("first-contentful-paint", auditNull),
    ("largest-contentful-paint", auditNull), ("total-blocking-time", auditNull),
    ("cumulative-layout-shift", auditNull), ("uses-http2", ⟨some 0, 0, ""⟩)]
  categories := [("performance", 1)]

/-- Field-experience metrics used to witness C7: layout-shift raw
percentile 1500 (hundredths), first-contentful-paint 1200. -/
def mC7 : List (String × ℚ) :=
  [("CUMULATIVE_LAYOUT_SHIFT_SCORE", 1500), ("FIRST_CONTENTFUL_PAINT_MS", 1200)]

/-- Loading experience used to witness C7. -/
def leC7 : LoadingExperience := ⟨"FAST", some mC7, false⟩

/-- The parsed result for the C7 witness input. -/
def resC7 : ParsedResults :=
  (parseResultsCore createResultsMap lrC7 leC7).toOption.getD ⟨[], false, false⟩

/-- Concrete lighthouse result refuting C8 as stated: an audit keyed
by the empty string with score 0 next to audit "b" with score 0. -/
def lrC8 : LighthouseResult where
  lighthouseVersion := "10.0.0"
  finalUrl := "https://a.example/x"
  audits := [("final-screenshot", ⟨none, 0, "imgdata"⟩),
    ("", ⟨some 0, 0, ""⟩), ("b", ⟨some 0, 0, ""⟩),
    ("server-response-time", auditNull), ("first-contentful-paint", auditNull),
    ("largest-contentful-paint", auditNull), ("total-blocking-time", auditNull),
    ("cumulative-layout-shift", auditNull)]
  categories := [("performance", 1)]

/-- Loading experience for the C8 input: no field data. -/
def leC8 : LoadingExperience := ⟨"NONE", none, false⟩

/-- The parsed result for the C8 input. -/
def resC8 : ParsedResults :=
  (parseResultsCore createResultsMap lrC8 leC8).toOption.getD ⟨[], false, false⟩

/-- Concrete lighthouse result for C9: all lookups present, including
`total-byte-weight`. -/
def lrC9 : LighthouseResult where
  lighthouseVersion := "10.0.0"
  finalUrl := "https://a.example/x"
  audits := [("final-screenshot", ⟨none, 0, "imgdata"⟩),
    ("server-response-time", auditNull), ("first-contentful-paint", auditNull),
    ("largest-contentful-paint", auditNull), ("total-blocking-time", auditNull),
    ("cumulative-layout-shift", auditNull), ("total-byte-weight", ⟨none, 1024, ""⟩)]
  categories := [("performance", 1)]

/-- Loading experience for the C9 input. -/
def leC9 : LoadingExperience := ⟨"FAST", none, false⟩

/-- Whether a parsed response can be processed by the success branch
without throwing: an API error always can (it takes the error branch);
a success response can iff the core extraction succeeds. -/
def processable (rm : ResultsMap) : PsiResult → Prop
  | PsiResult.apiError _ => True
  | PsiResult.success lr le => (parseResultsCore rm lr le).isOk = true

/-! Theorems. -/

/-- Helper: when the current page is empty and the running height plus
the height of the next row already exceeds the maximum, the loop re-shifts
the same row forever: the height is never reset and the page never
fills, so no fuel bound suffices. -/
theorem runPaginate_overflow_empty_none (widths : List Nat) (lineH maxH : Nat) (header : Row) :
    ∀ (fuel : Nat) (r : Row) (rest : List Row) (h : Nat),
    maxH < h + calculateRowHeight widths lineH r →
    (runPaginate widths lineH maxH header fuel (r :: rest) [] h).1 = none := by
  intro fuel
  induction fuel with
  | zero => intro r rest h _; simp [runPaginate]
  | succ fuel ih =>
    intro r rest h hov
    simp only [runPaginate, List.isEmpty_nil, if_pos hov, if_true]
    exact ih r rest (h + calculateRowHeight widths lineH r)
      (lt_of_lt_of_le hov (by omega))

/-- Helper: the main completeness invariant of the pagination loop.
If every remaining row fits on a page by itself, the loop terminates
within `2·|values| + 1` iterations, emits pages whose data rows are
exactly `page ++ values` in order, and every emitted page is the
header followed by at least one data row. -/
theorem runPaginate_complete (widths : List Nat) (lineH maxH : Nat) (header : Row) :
    ∀ (fuel : Nat) (values page : List Row) (h : Nat),
    (∀ r ∈ values, calculateRowHeight widths lineH r ≤ maxH) →
    (page = [] → h = 0) →
    (values = [] → page = []) →
    2 * values.length + (if page = [] then 0 else 1) ≤ fuel →
    ∃ ps, (runPaginate widths lineH maxH header fuel values page h).1 = some ps ∧
      (ps.map (fun p => p.drop 1)).flatten = page ++ values ∧
      ∀ p ∈ ps, ∃ d, p = header :: d ∧ d ≠ [] := by
  intro fuel
  induction fuel with
  | zero =>
    intro values page h _ _ hvp hm
    match values with
    | [] =>
      have hp := hvp rfl
      subst hp
      exact ⟨[], by simp [runPaginate], by simp, by simp⟩
    | v :: vs =>
      simp only [List.length_cons] at hm
      split at hm <;> omega
  | succ fuel ih =>
    intro values page h hrows hph hvp hm
    match values with
    | [] =>
      have hp := hvp rfl
      subst hp
      exact ⟨[], by simp [runPaginate], by simp, by simp⟩
    | r :: rest =>
      by_cases hov : maxH < h + calculateRowHeight widths lineH r
      · match page with
        | [] =>
          have h0 : h = 0 := hph rfl
          have hr : calculateRowHeight widths lineH r ≤ maxH :=
            hrows r (List.mem_cons_self r rest)
          omega
        | p0 :: prest =>
          obtain ⟨ps', hps', hjoin', hstruct'⟩ :=
            ih (r :: rest) [] 0 hrows (fun _ => rfl) (by simp)
              (by simp at hm ⊢; omega)
          refine ⟨(header :: (p0 :: prest)) :: ps', ?_, ?_, ?_⟩
          · simp only [runPaginate, if_pos hov, List.isEmpty_cons, Bool.false_eq_true,
              if_false, hps', Option.map_some']
          · simp only [List.map_cons, List.flatten_cons, List.drop_succ_cons, List.drop_zero]
            rw [hjoin']
            simp
          · intro p hp
            rcases List.mem_cons.mp hp with hp | hp
            · exact ⟨p0 :: prest, hp, by simp⟩
            · exact hstruct' p hp
      · by_cases hrest : rest = []
        · subst hrest
          refine ⟨[header :: (page ++ [r])], ?_, ?_, ?_⟩
          · simp only [runPaginate, if_neg hov, List.isEmpty_nil, if_true, Option.map_some']
          · simp
          · intro p hp
            simp only [List.mem_singleton] at hp
            exact ⟨page ++ [r], hp, by simp⟩
        · obtain ⟨ps', hps', hjoin', hstruct'⟩ :=
            ih rest (page ++ [r]) (h + calculateRowHeight widths lineH r)
              (fun x hx => hrows x (List.mem_cons_of_mem r hx))
              (by simp) (fun hc => absurd hc hrest)
              (by simp at hm ⊢; split at hm <;> omega)
          refine ⟨ps', ?_, ?_, hstruct'⟩
          · have hre : rest.isEmpty = false := by
              cases rest with
              | nil => exact absurd rfl hrest
              | cons a l => simp
            simp only [runPaginate, if_neg hov, hre, Bool.false_eq_true, if_false, hps']
          · rw [hjoin']
            simp

/-- Helper: the height invariant of the pagination loop.  If the
running height equals the accumulated page height and is within the
maximum, every page the loop emits has data rows whose total estimated
height is within the maximum. -/
theorem runPaginate_pages_bounded (widths : List Nat) (lineH maxH : Nat) (header : Row) :
    ∀ (fuel : Nat) (values page : List Row) (h : Nat) (ps : List (List Row)),
    h = pageRowsHeight widths lineH page →
    h ≤ maxH →
    (runPaginate widths lineH maxH header fuel values page h).1 = some ps →
    ∀ p ∈ ps, pageRowsHeight widths lineH (p.drop 1) ≤ maxH := by
  intro fuel
  induction fuel with
  | zero =>
    intro values page h ps _ _ hrun
    match values with
    | [] =>
      simp only [runPaginate, Option.some.injEq] at hrun
      subst hrun; simp
    | v :: vs => simp [runPaginate] at hrun
  | succ fuel ih =>
    intro values page h ps hinv hle hrun
    match values with
    | [] =>
      simp only [runPaginate, Option.some.injEq] at hrun
      subst hrun; simp
    | r :: rest =>
      by_cases hov : maxH < h + calculateRowHeight widths lineH r
      · match page with
        | [] =>
          rw [runPaginate_overflow_empty_none widths lineH maxH header
            (fuel + 1) r rest h hov] at hrun
          exact absurd hrun (by simp)
        | p0 :: prest =>
          simp only [runPaginate, if_pos hov, List.isEmpty_cons, Bool.false_eq_true,
            if_false] at hrun
          rw [Option.map_eq_some'] at hrun
          obtain ⟨ps', hps', hps⟩ := hrun
          subst hps
          intro p hp
          rcases List.mem_cons.mp hp with hp | hp
          · subst hp
            simpa [hinv] using hle
          · exact ih (r :: rest) [] 0 ps' (by simp [pageRowsHeight]) (by omega) hps' p hp
      · by_cases hrest : rest = []
        · subst hrest
          simp only [runPaginate, if_neg hov, List.isEmpty_nil, if_true,
            Option.map_eq_some'] at hrun
          obtain ⟨ps', hps', hps⟩ := hrun
          simp only [runPaginate, Option.some.injEq] at hps'
          subst hps'
          subst hps
          intro p hp
          simp only [List.mem_singleton] at hp
          subst hp
          simp only [List.drop_succ_cons, List.drop_zero]
          have : pageRowsHeight widths lineH (page ++ [r]) =
              pageRowsHeight widths lineH page + calculateRowHeight widths lineH r := by
            simp [pageRowsHeight]
          omega
        · have hre : rest.isEmpty = false := by
            cases rest with
            | nil => exact absurd rfl hrest
            | cons a l => simp
          simp only [runPaginate, if_neg hov, hre, Bool.false_eq_true, if_false] at hrun
          have hinv' : h + calculateRowHeight widths lineH r =
              pageRowsHeight widths lineH (page ++ [r]) := by
            simp [pageRowsHeight, hinv]
          exact ih rest (page ++ [r]) (h + calculateRowHeight widths lineH r) ps
            hinv' (by omega) hrun

/-- Helper: whenever the loop terminates (returns `some` pages), the
`values` array has been fully consumed: its final state is empty. -/
theorem runPaginate_consumes_values (widths : List Nat) (lineH maxH : Nat) (header : Row) :
    ∀ (fuel : Nat) (values page : List Row) (h : Nat) (ps : List (List Row)),
    (runPaginate widths lineH maxH header fuel values page h).1 = some ps →
    (runPaginate widths lineH maxH header fuel values page h).2 = [] := by
  intro fuel
  induction fuel with
  | zero =>
    intro values page h ps hrun
    match values with
    | [] => rfl
    | v :: vs => simp [runPaginate] at hrun
  | succ fuel ih =>
    intro values page h ps hrun
    match values with
    | [] => rfl
    | r :: rest =>
      by_cases hov : maxH < h + calculateRowHeight widths lineH r
      · by_cases hpe : page.isEmpty
        · simp only [runPaginate, if_pos hov, hpe, if_true] at hrun ⊢
          exact ih (r :: rest) [] (h + calculateRowHeight widths lineH r) ps hrun
        · simp only [runPaginate, if_pos hov, hpe, Bool.false_eq_true, if_false,
            Option.map_eq_some'] at hrun ⊢
          obtain ⟨ps', hps', _⟩ := hrun
          exact ih (r :: rest) [] 0 ps' hps'
      · by_cases hre : rest.isEmpty
        · simp only [runPaginate, if_neg hov, hre, if_true]
        · simp only [runPaginate, if_neg hov, hre, Bool.false_eq_true, if_false] at hrun ⊢
          exact ih rest (page ++ [r]) (h + calculateRowHeight widths lineH r) ps hrun

/-- C1: the claim says a single data row whose estimated height alone
exceeds `MAX_PAGE_HEIGHT` yields a one-page, one-row output (no
infinite loop).  The code does the opposite: with values = [header,
oversizedRow] the loop re-shifts the oversized row forever (the page
stays empty, `pageFull` stays false, the running height only grows),
so for every fuel bound the loop has not terminated and no page was
emitted. -/
theorem C1_oversized_row_never_terminates :
    ∀ fuel : Nat, (createPaginatedTableSlides fuel [["Header"], oversizedRow]).1 = none := by
  intro fuel
  show (runPaginate COLUMN_WIDTH LINE_HEIGHT MAX_PAGE_HEIGHT
    ["Header"] fuel [oversizedRow] [] 0).1 = none
  exact runPaginate_overflow_empty_none COLUMN_WIDTH LINE_HEIGHT MAX_PAGE_HEIGHT
    ["Header"] fuel oversizedRow [] 0 (by decide)

/-- C3: for non-empty `dataRows` in which every estimated row height
is at most `maxPageHeight`, pagination terminates (fuel
`2·|dataRows| + 1` suffices) and the concatenation of the pages' data
rows (dropping the prepended header of each page) equals `dataRows` in
order, with every page being the header followed by at least one data
row. -/
theorem C3_pagination_preserves_rows (widths : List Nat) (lineH maxH : Nat)
    (header : Row) (dataRows : List Row)
    (hne : dataRows ≠ [])
    (hfit : ∀ r ∈ dataRows, calculateRowHeight widths lineH r ≤ maxH) :
    ∃ ps, (runPaginate widths lineH maxH header
        (2 * dataRows.length + 1) dataRows [] 0).1 = some ps ∧
      (ps.map (fun p => p.drop 1)).flatten = dataRows ∧
      ∀ p ∈ ps, ∃ d, p = header :: d ∧ d ≠ [] := by
  obtain ⟨ps, h1, h2, h3⟩ := runPaginate_complete widths lineH maxH header
    (2 * dataRows.length + 1) dataRows [] 0 hfit (fun _ => rfl) (fun _ => rfl)
    (by simp)
  exact ⟨ps, h1, by simpa using h2, h3⟩

/-- Witness for C3 at a concrete input: two one-cell rows of height 10
each against the constants of the file. -/
theorem C3_pagination_preserves_rows_witness :
    ∃ ps, (runPaginate COLUMN_WIDTH LINE_HEIGHT MAX_PAGE_HEIGHT ["h"]
        (2 * ([["a"], ["b"]] : List Row).length + 1) [["a"], ["b"]] [] 0).1 = some ps ∧
      (ps.map (fun p => p.drop 1)).flatten = [["a"], ["b"]] ∧
      ∀ p ∈ ps, ∃ d, p = ["h"] :: d ∧ d ≠ [] :=
  C3_pagination_preserves_rows COLUMN_WIDTH LINE_HEIGHT MAX_PAGE_HEIGHT ["h"]
    [["a"], ["b"]] (by decide) (by decide)

/-- C4: every page produced by the pagination loop satisfies the
height invariant: the total estimated height of its data rows
(excluding the prepended header) is at most `maxPageHeight`, or the
page is a single data row that alone exceeds the maximum.  (In fact
the code never emits a degenerate oversized page — it fails to
terminate instead, see C1 — so the first disjunct always holds.) -/
theorem C4_page_height_invariant (widths : List Nat) (lineH maxH : Nat) (header : Row)
    (fuel : Nat) (dataRows : List Row) (ps : List (List Row))
    (hrun : (runPaginate widths lineH maxH header fuel dataRows [] 0).1 = some ps) :
    ∀ p ∈ ps, pageRowsHeight widths lineH (p.drop 1) ≤ maxH ∨
      (∃ r, p.drop 1 = [r] ∧ maxH < calculateRowHeight widths lineH r) := by
  intro p hp
  exact Or.inl (runPaginate_pages_bounded widths lineH maxH header fuel dataRows [] 0 ps
    (by simp [pageRowsHeight]) (Nat.zero_le _) hrun p hp)

/-- Witness for C4 at a concrete input: one data row of height 10. -/
theorem C4_page_height_invariant_witness :
    pageRowsHeight COLUMN_WIDTH LINE_HEIGHT (([["h"], ["a"]] : List Row).drop 1)
      ≤ MAX_PAGE_HEIGHT ∨
    (∃ r, ([["h"], ["a"]] : List Row).drop 1 = [r] ∧
      MAX_PAGE_HEIGHT < calculateRowHeight COLUMN_WIDTH LINE_HEIGHT r) :=
  C4_page_height_invariant COLUMN_WIDTH LINE_HEIGHT MAX_PAGE_HEIGHT ["h"] 5 [["a"]]
    [[["h"], ["a"]]] (by decide) [["h"], ["a"]] (by decide)

/-- C6 counterexample: the claim says the `values` array of the caller is
exactly as before after a call.  The loop consumes `values` by
`shift()`: after this terminating call the array is empty, not the
original two rows. -/
theorem C6_counterexample :
    (createPaginatedTableSlides 5 [["h"], ["a"]]).2 ≠ [["h"], ["a"]] := by decide

/-- C6 (amended): `createPaginatedTableSlides` destructively consumes
its `values` argument — after any call whose loop terminates, the
array is left empty (so a repeated call on the same array returns no
pages rather than the output of the first call); as a value-level function
of its inputs the model is pure, so equal fresh inputs still give
equal outputs. -/
theorem C6_paginate_consumes_input (widths : List Nat) (lineH maxH : Nat) (header : Row)
    (fuel : Nat) (values page : List Row) (h : Nat) (ps : List (List Row))
    (hrun : (runPaginate widths lineH maxH header fuel values page h).1 = some ps) :
    (runPaginate widths lineH maxH header fuel values page h).2 = [] :=
  runPaginate_consumes_values widths lineH maxH header fuel values page h ps hrun

/-- Witness for C6 at a concrete input. -/
theorem C6_paginate_consumes_input_witness :
    (runPaginate COLUMN_WIDTH LINE_HEIGHT MAX_PAGE_HEIGHT ["h"] 5 [["a"]] [] 0).2 = [] :=
  C6_paginate_consumes_input COLUMN_WIDTH LINE_HEIGHT MAX_PAGE_HEIGHT ["h"] 5 [["a"]] [] 0
    [[["h"], ["a"]]] (by decide)


/-- Helper: the shape of a successful `parseResultsCore` run. -/
theorem parseResultsCore_ok (rm : ResultsMap) (lr : LighthouseResult)
    (le : LoadingExperience) (res : ParsedResults)
    (hok : parseResultsCore rm lr le = Except.ok res) :
    ∃ sc cats mets, screenshotData lr = Except.ok sc ∧
      rm.categories.mapM (categoryScore lr) = Except.ok cats ∧
      rm.metrics.mapM (metricValue lr) = Except.ok mets ∧
      res.data = [CellVal.str sc] ++ cruxBlock rm le ++ cats ++ mets ++
        [CellVal.str (String.intercalate "," (failedAuditNames lr.audits)),
         CellVal.str lr.lighthouseVersion] ∧
      res.crux_data = le.metrics.isSome := by
  unfold parseResultsCore at hok
  cases hss : screenshotData lr with
  | error e => rw [hss] at hok; exact absurd hok (by simp)
  | ok sc =>
    rw [hss] at hok
    cases hcat : rm.categories.mapM (categoryScore lr) with
    | error e => rw [hcat] at hok; exact absurd hok (by simp)
    | ok cats =>
      rw [hcat] at hok
      cases hmet : rm.metrics.mapM (metricValue lr) with
      | error e => rw [hmet] at hok; exact absurd hok (by simp)
      | ok mets =>
        rw [hmet] at hok
        simp only [Except.ok.injEq] at hok
        subst hok
        exact ⟨sc, cats, mets, rfl, rfl, rfl, rfl, rfl⟩

/-- C7: in a successful response whose field-experience section is
present, the value extracted for `CUMULATIVE_LAYOUT_SHIFT_SCORE`
(position 5 of the data row: screenshot, overall category, then the
five crux metrics in `createResultsMap` order) is the raw
percentile of that metric divided by 100, and the percentile of every
other present field-experience metric is pushed unmodified. -/
theorem C7_layout_shift_percentile_divided
    (lr : LighthouseResult) (le : LoadingExperience) (m : List (String × ℚ))
    (res : ParsedResults) (p : ℚ)
    (hok : parseResultsCore createResultsMap lr le = Except.ok res)
    (hm : le.metrics = some m)
    (hcls : lookupKey m "CUMULATIVE_LAYOUT_SHIFT_SCORE" = some p) :
    res.data.get? 5 = some (CellVal.num (p / 100)) ∧
    ∀ i name q, createResultsMap.crux.get? i = some name →
      name ≠ "CUMULATIVE_LAYOUT_SHIFT_SCORE" → lookupKey m name = some q →
      res.data.get? (2 + i) = some (CellVal.num q) := by
  obtain ⟨sc, cats, mets, _, _, _, hdata, _⟩ := parseResultsCore_ok _ _ _ _ hok
  have hblock : cruxBlock createResultsMap le =
      CellVal.str le.overall_category :: cruxValues m createResultsMap.crux := by
    simp [cruxBlock, hm]
  rw [hblock] at hdata
  constructor
  · rw [hdata]
    simp only [createResultsMap, cruxValues, List.map_cons, List.map_nil,
      List.cons_append, List.nil_append, List.get?_cons_succ, List.get?_cons_zero]
    rw [hcls]
    simp
  · intro i name q hname hne hq
    rw [hdata]
    match i with
    | 0 =>
      simp only [createResultsMap] at hname
      simp only [List.get?_cons_zero, Option.some.injEq] at hname
      subst hname
      simp only [createResultsMap, cruxValues, List.map_cons, List.map_nil,
        List.cons_append, List.nil_append, List.get?_cons_succ, List.get?_cons_zero]
      rw [hq]
      simp
    | 1 =>
      simp only [createResultsMap, List.get?_cons_succ, List.get?_cons_zero,
        Option.some.injEq] at hname
      subst hname
      simp only [createResultsMap, cruxValues, List.map_cons, List.map_nil,
        List.cons_append, List.nil_append, List.get?_cons_succ, List.get?_cons_zero]
      rw [hq]
      simp
    | 2 =>
      simp only [createResultsMap, List.get?_cons_succ, List.get?_cons_zero,
        Option.some.injEq] at hname
      subst hname
      simp only [createResultsMap, cruxValues, List.map_cons, List.map_nil,
        List.cons_append, List.nil_append, List.get?_cons_succ, List.get?_cons_zero]
      rw [hq]
      simp
    | 3 =>
      simp only [createResultsMap, List.get?_cons_succ, List.get?_cons_zero,
        Option.some.injEq] at hname
      exact absurd hname.symm hne
    | 4 =>
      simp only [createResultsMap, List.get?_cons_succ, List.get?_cons_zero,
        Option.some.injEq] at hname
      subst hname
      simp only [createResultsMap, cruxValues, List.map_cons, List.map_nil,
        List.cons_append, List.nil_append, List.get?_cons_succ, List.get?_cons_zero]
      rw [hq]
      simp
    | n + 5 =>
      simp only [createResultsMap, List.get?_cons_succ] at hname
      simp at hname

/-- Witness for C7 at the concrete input of the example in the spec: raw
layout-shift percentile 1500 extracts as 15, and the
first-contentful-paint percentile 1200 is pushed unmodified. -/
theorem C7_layout_shift_percentile_divided_witness :
    resC7.data.get? 5 = some (CellVal.num (1500 / 100)) ∧
    resC7.data.get? (2 + 0) = some (CellVal.num 1200) := by
  have h := C7_layout_shift_percentile_divided lrC7 leC7 mC7 resC7 1500
    (by rfl) rfl (by decide)
  exact ⟨h.1, h.2 0 "FIRST_CONTENTFUL_PAINT_MS" 1200 (by decide) (by decide) (by decide)⟩

/-- Helper: the element two places before the end of `l ++ [a, b]`. -/
theorem get?_penultimate {α : Type} (l : List α) (a b : α) :
    (l ++ [a, b]).get? ((l ++ [a, b]).length - 2) = some a := by
  have hlen : (l ++ [a, b]).length = l.length + 2 := by simp
  rw [hlen]
  simp only [Nat.add_sub_cancel]
  rw [List.get?_append_right (Nat.le_refl l.length)]
  simp

/-- C8 (amended): for every successful response, the failed-checks
field (two places before the end of the data row) is the comma-joined
list of exactly those audit identifiers that are non-empty strings
with a non-null score strictly less than 1, in audit-key order. -/
theorem C8_failed_checks_field (rm : ResultsMap) (lr : LighthouseResult)
    (le : LoadingExperience) (res : ParsedResults)
    (hok : parseResultsCore rm lr le = Except.ok res) :
    res.data.get? (res.data.length - 2) =
      some (CellVal.str (String.intercalate "," (specFailedAuditsAmended lr.audits))) := by
  obtain ⟨sc, cats, mets, _, _, _, hdata, _⟩ := parseResultsCore_ok _ _ _ _ hok
  have heq : failedAuditNames lr.audits = specFailedAuditsAmended lr.audits := by
    unfold failedAuditNames specFailedAuditsAmended
    congr 1
    exact List.filter_congr (fun p _ => Bool.and_comm _ _)
  have hshape : res.data =
      ([CellVal.str sc] ++ cruxBlock rm le ++ cats ++ mets) ++
        [CellVal.str (String.intercalate "," (failedAuditNames lr.audits)),
         CellVal.str lr.lighthouseVersion] := by
    rw [hdata]
    try simp [List.append_assoc]
  rw [hshape, heq, get?_penultimate]

/-- Witness for the amended C8 at the concrete input `lrC8`. -/
theorem C8_failed_checks_field_witness :
    resC8.data.get? (resC8.data.length - 2) =
      some (CellVal.str (String.intercalate "," (specFailedAuditsAmended lrC8.audits))) :=
  C8_failed_checks_field createResultsMap lrC8 leC8 resC8 (by rfl)

/-- C8 counterexample to the claim as stated: in `lrC8` the audits
keyed "" and "b" both have score 0 (non-null and below 1).  The
description in the claim joins both identifiers, giving ",b", but the
filter callback in the code returns the audit name itself, so the
empty-string key is falsy and dropped: the row carries "b". -/
theorem C8_counterexample :
    parseResultsCore createResultsMap lrC8 leC8 = Except.ok resC8 ∧
    resC8.data.get? (resC8.data.length - 2) = some (CellVal.str "b") ∧
    String.intercalate "," (specFailedAudits lrC8.audits) = ",b" :=
  ⟨rfl, by decide, by decide⟩

/-- Helper: with the CO2 flag off, `parseResults` is exactly the core
extraction. -/
theorem parseResults_co2_off (rm : ResultsMap) (greenCheck : String → Except String Bool)
    (perByte : ℚ → Bool → ℚ) (lr : LighthouseResult) (le : LoadingExperience) :
    parseResults rm false greenCheck perByte lr le = parseResultsCore rm lr le := by
  unfold parseResults
  cases parseResultsCore rm lr le <;> rfl

/-- C9 (amended): with `INCLUDE_CO2EQ` set, a failure of the
green-hosting lookup is not caught anywhere: the exception propagates
out of `parseResults`, failing the whole row (and with it the batch),
even when the row would otherwise parse fine; no row with the CO2
field merely omitted is produced. -/
theorem C9_green_lookup_failure_fails_row (rm : ResultsMap) (lr : LighthouseResult)
    (le : LoadingExperience) (perByte : ℚ → Bool → ℚ)
    (greenCheck : String → Except String Bool) (e : String)
    (hok : (parseResultsCore rm lr le).isOk = true)
    (htbw : (lookupKey lr.audits "total-byte-weight").isSome = true)
    (hg : greenCheck (hostnameOf lr.finalUrl) = Except.error e) :
    parseResults rm true greenCheck perByte lr le = Except.error e := by
  obtain ⟨a, ht⟩ := Option.isSome_iff_exists.mp htbw
  cases hc : parseResultsCore rm lr le with
  | error e' => rw [hc] at hok; exact absurd hok (by simp [Except.isOk, Except.toBool])
  | ok res =>
    simp only [parseResults, hc, if_true, totalByteWeight, ht, getCo2eqPerByte,
      checkGreenHosting, hg]

/-- Witness for the amended C9 at the concrete input `lrC9`. -/
theorem C9_green_lookup_failure_fails_row_witness :
    parseResults createResultsMap true (fun _ => Except.error "boom") (fun _ _ => 0)
      lrC9 leC9 = Except.error "boom" :=
  C9_green_lookup_failure_fails_row createResultsMap lrC9 leC9 (fun _ _ => 0)
    (fun _ => Except.error "boom") "boom" (by rfl) (by rfl) (by rfl)

/-- C9 counterexample to the claim as stated: on `lrC9` the row parses
fine without the CO2 block, but with `INCLUDE_CO2EQ` set and the
green-hosting lookup failing, `parseResults` returns the thrown
exception instead of a row with the CO2 field omitted or zeroed. -/
theorem C9_counterexample :
    parseResults createResultsMap true (fun _ => Except.error "GreenWeb lookup failed")
      (fun _ _ => 0) lrC9 leC9 = Except.error "GreenWeb lookup failed" ∧
    (parseResultsCore createResultsMap lrC9 leC9).isOk = true :=
  ⟨rfl, rfl⟩

/-- C5 (amended): a response body whose `JSON.parse` throws aborts the
batch at that point: the loop exits with the exception, the malformed
response gets no row (error-tagged or otherwise), and no later
response is processed; only rows appended for earlier responses
remain. -/
theorem C5_malformed_json_aborts_batch (rm : ResultsMap) (lastColumn : Nat)
    (today : String) (includeCo2 : Bool) (greenCheck : String → Except String Bool)
    (perByte : ℚ → Bool → ℚ) (s : UrlSetting) (settings : List UrlSetting)
    (e : String) (responses : List (Except String PsiResult)) :
    runPSITests rm lastColumn today includeCo2 greenCheck perByte
      (s :: settings) (Except.error e :: responses) = ([], some e) := rfl

/-- C5 counterexample to the claim as stated: a batch of two responses
whose first body is malformed JSON.  The claim requires an
error-tagged row for it and processing of the second response; the
code instead throws out of the loop — no rows at all, and the
well-formed second response is never processed. -/
theorem C5_counterexample :
    runPSITests createResultsMap 10 "2026-10-11" false (fun _ => Except.ok true)
      (fun _ _ => 0)
      [⟨"https://a.example", "Home", "MOBILE"⟩, ⟨"https://b.example", "B", "DESKTOP"⟩]
      [Except.error "SyntaxError: Unexpected token",
        Except.ok (PsiResult.apiError "Quota exceeded")]
      = ([], some "SyntaxError: Unexpected token") := rfl

/-- C2: over any batch whose N response bodies all parse (each either
an API error shape or a processable success shape — the failing subset
is arbitrary), the loop appends exactly N rows, no exception escapes,
and the i-th row starts with the url, label and device of the i-th
settings row. -/
theorem C2_batch_output_positional (rm : ResultsMap) (lastColumn : Nat) (today : String)
    (greenCheck : String → Except String Bool) (perByte : ℚ → Bool → ℚ) :
    ∀ (settings : List UrlSetting) (contents : List PsiResult),
    settings.length = contents.length →
    (∀ c ∈ contents, processable rm c) →
    (runPSITests rm lastColumn today false greenCheck perByte settings
        (contents.map Except.ok)).2 = none ∧
    (runPSITests rm lastColumn today false greenCheck perByte settings
        (contents.map Except.ok)).1.length = contents.length ∧
    ∀ i : Nat,
      ((runPSITests rm lastColumn today false greenCheck perByte settings
          (contents.map Except.ok)).1.get? i).map (fun r => r.cells.take 3) =
        (settings.get? i).map (fun st =>
          [CellVal.str st.url, CellVal.str st.label, CellVal.str st.device]) := by
  intro settings
  induction settings with
  | nil =>
    intro contents hlen _
    have hc : contents = [] := by
      cases contents with
      | nil => rfl
      | cons c cs => simp at hlen
    subst hc
    exact ⟨rfl, rfl, fun i => by cases i <;> rfl⟩
  | cons s ss ih =>
    intro contents hlen hproc
    cases contents with
    | nil => simp at hlen
    | cons c cs =>
      have hlen' : ss.length = cs.length := by simpa using hlen
      have hproc' : ∀ x ∈ cs, processable rm x :=
        fun x hx => hproc x (List.mem_cons_of_mem c hx)
      obtain ⟨ih1, ih2, ih3⟩ := ih cs hlen' hproc'
      cases c with
      | apiError msg =>
        refine ⟨?_, ?_, ?_⟩
        · simpa only [List.map_cons, runPSITests] using ih1
        · simp only [List.map_cons, runPSITests, List.length_cons]
          rw [ih2]
        · intro i
          cases i with
          | zero => simp [runPSITests, errorRow]
          | succ i =>
            simp only [List.map_cons, runPSITests, List.get?_cons_succ]
            exact ih3 i
      | success lr le =>
        have hp : (parseResultsCore rm lr le).isOk = true := hproc _ (List.mem_cons_self _ _)
        cases hres : parseResultsCore rm lr le with
        | error e' => rw [hres] at hp; exact absurd hp (by simp [Except.isOk, Except.toBool])
        | ok res =>
          have hfull : parseResults rm false greenCheck perByte lr le = Except.ok res := by
            rw [parseResults_co2_off, hres]
          refine ⟨?_, ?_, ?_⟩
          · simpa only [List.map_cons, runPSITests, hfull] using ih1
          · simp only [List.map_cons, runPSITests, hfull, List.length_cons]
            rw [ih2]
          · intro i
            cases i with
            | zero => simp [runPSITests, hfull, successRow]
            | succ i =>
              simp only [List.map_cons, runPSITests, hfull, List.get?_cons_succ]
              exact ih3 i

/-- Witness for C2: a one-element batch whose single request fails
with an API error. -/
theorem C2_batch_output_positional_witness :
    (runPSITests createResultsMap 10 "2026-10-11" false (fun _ => Except.ok true)
        (fun _ _ => 0) [⟨"https://a.example", "Home", "MOBILE"⟩]
        ([PsiResult.apiError "Quota exceeded"].map Except.ok)).2 = none ∧
    (runPSITests createResultsMap 10 "2026-10-11" false (fun _ => Except.ok true)
        (fun _ _ => 0) [⟨"https://a.example", "Home", "MOBILE"⟩]
        ([PsiResult.apiError "Quota exceeded"].map Except.ok)).1.length =
      [PsiResult.apiError "Quota exceeded"].length := by
  have h := C2_batch_output_positional createResultsMap 10 "2026-10-11"
    (fun _ => Except.ok true) (fun _ _ => 0)
    [⟨"https://a.example", "Home", "MOBILE"⟩] [PsiResult.apiError "Quota exceeded"]
    rfl (by intro c hc; simp at hc; subst hc; trivial)
  exact ⟨h.1, h.2.1⟩

/-- C10: `getFunctionByName` resolves iff the whole name is
alphanumeric — it throws exactly when the name is empty or contains
any character outside [a-zA-Z0-9], so a configuration string can never
smuggle a composite code expression through it. -/
theorem C10_function_name_gate (s : String) :
    (getFunctionByName s).isOk = true ↔
      (s ≠ "" ∧ ∀ c ∈ s.toList, (c.isAlpha || c.isDigit) = true) := by
  have hempty : (s.toList.isEmpty = false) ↔ s ≠ "" := by
    constructor
    · intro h hs
      subst hs
      simp at h
    · intro h
      cases hl : s.toList.isEmpty with
      | false => rfl
      | true =>
        exfalso
        apply h
        apply String.ext
        simpa [String.toList, List.isEmpty_iff] using hl
  have key : (getFunctionByName s).isOk = isAlphanumeric s := by
    unfold getFunctionByName
    cases h : isAlphanumeric s <;> simp [h, Except.isOk, Except.toBool]
  rw [key]
  unfold isAlphanumeric
  rw [Bool.and_eq_true, Bool.not_eq_true']
  rw [hempty, List.all_eq_true]

/-- Witness for C10: a fully alphanumeric name resolves. -/
theorem C10_function_name_gate_witness :
    (getFunctionByName "loadConfiguration2").isOk = true :=
  (C10_function_name_gate "loadConfiguration2").mpr (by decide)

end SlideStarter
